import Mathlib

/-!
# FerretDB handler core: `CmdQuery`, `MsgSASLContinue`, `MsgDropAllUsersFromDatabase`

A shallow embedding of the three handlers of `internal/handler`:

* `cmd_query.go`                      (`Handler.CmdQuery`)
* `msg_saslcontinue.go`               (`Handler.MsgSASLContinue`)
* `msg_dropallusersfromdatabase.go`   (`Handler.MsgDropAllUsersFromDatabase`)

Go values with two results `(reply, error)` become an `Outcome`; a Go run-time
panic (`must.NoError`, `must.NotFail`, an index out of range, a nil receiver)
is the third outcome `panicked`.  Calls into collaborators (backend, SCRAM
engine, connection info, `common.IsMaster`) are recorded, in order, in a list
of `Call`s that every handler returns next to its outcome.

Go `string` and `[]byte` are both byte sequences and `string(b)` keeps the
bytes; both are represented by `String` (text that is valid UTF-8).
-/

set_option autoImplicit false

namespace FerretDB

/-! ## Data model -/

/-- The Go type `types.Binary`: a subtype byte and the bytes `B`. -/
structure Binary where
  Subtype : Nat
  B : String

/-- The Go zero value of `types.Binary` (`var emptyPayload types.Binary`). -/
def Binary.zero : Binary := ⟨0, ""⟩

/-- Values of a command document (the Go package `types`).  A nested document is its
ordered list of fields. -/
inductive Value where
  | double (f : Float)
  | string (s : String)
  | document (fields : List (String × Value))
  | array (items : List Value)
  | binary (b : Binary)
  | bool (b : Bool)
  | null
  | int32 (n : Int)
  | int64 (n : Int)

/-- The Go type `types.Document`: fields in insertion order. -/
abbrev Document := List (String × Value)

/-- Modelled from the spec: `types.Document.Command` is not under src/; "command
identification reads the *first* field as the command name" (empty for an empty
document). -/
def Document.Command : Document → String
  | [] => ""
  | (k, _) :: _ => k

/-- Modelled from the spec: `types.Document.Has` is not under src/; whether the ordered
mapping has a field of that name. -/
def Document.Has : Document → String → Bool
  | [], _ => false
  | (k, _) :: rest, key => if k = key then true else Document.Has rest key

/-- Modelled from the spec: `types.Document.Get` is not under src/; the value of the
field of that name, if any. -/
def Document.Get : Document → String → Option Value
  | [], _ => none
  | (k, v) :: rest, key => if k = key then some v else Document.Get rest key

/-- Modelled from the spec: `types.Document.Set` is not under src/; in an ordered mapping
it replaces the value of an existing field in place and appends a new field otherwise. -/
def Document.Set : Document → String → Value → Document
  | [], key, v => [(key, v)]
  | (k, x) :: rest, key, v =>
    if k = key then (k, v) :: rest else (k, x) :: Document.Set rest key v

/-- The Go conversion `float64(n)` of an integer constant. -/
def float64 (n : Nat) : Float := Float.ofNat n

/-- Error codes of `handlererrors` that the handlers and the spec name. -/
inductive ErrorCode where
  | ErrNotImplemented
  | MalformedRequest
  | AuthenticationError
  deriving DecidableEq

/-- Go `error` values seen by the handlers. -/
inductive GoError where
  /-- Result of `handlererrors.NewCommandErrorMsgWithArgument(code, msg, argument)`. -/
  | commandError (code : ErrorCode) (msg : String) (argument : String)
  /-- Result of `lazyerrors.Error(err)`: the error wrapped with call-site context. -/
  | lazyError (err : GoError)
  /-- An error value produced by a collaborator. -/
  | other (text : String)
  deriving DecidableEq

/-- What a handler call does: `return reply, nil`, `return nil, err`, or a panic. -/
inductive Outcome (α : Type) where
  | returned (reply : α)
  | failed (err : GoError)
  | panicked

/-- The Go type `wire.OpQuery`, the fields `CmdQuery` reads. -/
structure OpQuery where
  FullCollectionName : String
  Query : Document

/-- The Go type `wire.OpReply`, the fields `CmdQuery` writes. -/
structure OpReply where
  NumberReturned : Int
  Documents : List Document

/-- The Go type `wire.OpMsgSection`, the field the handlers set. -/
structure OpMsgSection where
  Documents : List Document

/-- The Go type `wire.OpMsg` as built by `SetSections`. -/
structure OpMsg where
  sections : List OpMsgSection

/-- The Go type `backends.QueryParams`, the fields the handler sets. -/
structure QueryParams where
  Filter : Document
  OnlyRecordIDs : Bool

/-- Calls into collaborators, recorded in the order the handler makes them. -/
inductive Call where
  | isMaster (doc : Document)
  | saslStartSCRAM (doc : Document)
  | setConv
  | step (challenge : String)
  | valid
  | database (name : String)
  | collection (name : String)
  | query (params : QueryParams)
  | next
  | deleteAll (recordIDs : List Int)
  | close

/-! ## Go library functions used by the handlers -/

/-- The Go function `strings.HasSuffix`. -/
def HasSuffix (s suffix : String) : Bool := suffix.data.isSuffixOf s.data

/-- The digits of `strconv`'s `lowerhex`. -/
def lowerhex (n : Nat) : Char := "0123456789abcdef".data.getD n '0'

/-- The Go function `strconv.IsPrint`: exact on Latin-1, the Unicode tables of the Go
library (a parameter) above it. -/
def IsPrint (table : Nat → Bool) (r : Nat) : Bool :=
  if r ≤ 0xFF then
    if 0x20 ≤ r ∧ r < 0x7F then true
    else if 0xA1 ≤ r then r != 0xAD
    else false
  else table r

/-- The Go function `strconv.appendEscapedRune` for the double quote, neither ASCII-only
nor graphic-only: what `%q` writes for one rune. -/
def appendEscapedRune (table : Nat → Bool) (c : Char) : List Char :=
  let r := c.toNat
  if c = '"' ∨ c = '\\' then ['\\', c]
  else if IsPrint table r then [c]
  else if r = 7 then ['\\', 'a']
  else if r = 8 then ['\\', 'b']
  else if r = 12 then ['\\', 'f']
  else if r = 10 then ['\\', 'n']
  else if r = 13 then ['\\', 'r']
  else if r = 9 then ['\\', 't']
  else if r = 11 then ['\\', 'v']
  else if r < 0x20 ∨ r = 0x7F then ['\\', 'x', lowerhex (r / 16 % 16), lowerhex (r % 16)]
  else if r < 0x10000 then
    ['\\', 'u', lowerhex (r / 4096 % 16), lowerhex (r / 256 % 16), lowerhex (r / 16 % 16),
      lowerhex (r % 16)]
  else
    ['\\', 'U', lowerhex (r / 268435456 % 16), lowerhex (r / 16777216 % 16),
      lowerhex (r / 1048576 % 16), lowerhex (r / 65536 % 16), lowerhex (r / 4096 % 16),
      lowerhex (r / 256 % 16), lowerhex (r / 16 % 16), lowerhex (r % 16)]

/-- The runes of a string, each escaped as `%q` escapes it. -/
def quoteRunes (table : Nat → Bool) : List Char → List Char
  | [] => []
  | c :: cs => appendEscapedRune table c ++ quoteRunes table cs

/-- The Go function `strconv.Quote`, which is what `fmt.Sprintf` applies for `%q`. -/
def Quote (table : Nat → Bool) (s : String) : String :=
  String.mk ('"' :: (quoteRunes table s.data ++ ['"']))

/-! ## `CmdQuery` (cmd_query.go) -/

/-- The per-connection state of `conninfo`: the conversation pointer (`none` is nil). -/
structure ConnInfo (Conv : Type) where
  conv : Option Conv

/-- Functions `CmdQuery` calls that are not under src/, taken as parameters:
`common.IsMaster`, `saslStartSCRAM`, and the Unicode table behind `strconv.IsPrint`. -/
structure Helpers (Conv : Type) where
  IsMaster : Document → Except GoError OpReply
  saslStartSCRAM : Document → Except GoError (String × Option Conv)
  isPrintTable : Nat → Bool

/-- The test of the speculative-authentication rule on the command name (line 44). -/
def speculativeCmd (cmd : String) : Bool :=
  cmd = "ismaster" ∨ cmd = "helloOk"

/-- The test of the pass-through rule on the command name (line 68). -/
def passThroughCmd (cmd : String) : Bool :=
  cmd = "ismaster" ∨ cmd = "isMaster"

/-- The nested document of the speculative reply (lines 56-62). -/
def speculativeDocument (response : String) : Document :=
  [("conversationId", .int32 1), ("done", .bool false), ("payload", .string response),
    ("ok", .double (float64 1))]

/-- The document of the legacy `saslStart` stub (lines 80-85). -/
def saslStartStubDocument : Document :=
  [("conversationId", .int32 1), ("done", .bool true), ("payload", .binary Binary.zero),
    ("ok", .double (float64 1))]

/-- The message of the fall-through error (line 91). -/
def unhandledMsg (table : Nat → Bool) (cmd collection : String) : String :=
  "CmdQuery: unhandled command " ++ Quote table cmd ++ " for collection " ++
    Quote table collection

/-- The Go method `Handler.CmdQuery`: outcome, connection state afterwards, calls made. -/
def CmdQuery {Conv : Type} (h : Helpers Conv) (ci : ConnInfo Conv) (query : OpQuery) :
    Outcome OpReply × ConnInfo Conv × List Call :=
  let cmd := query.Query.Command
  let collection := query.FullCollectionName
  let doc := query.Query
  if speculativeCmd cmd && doc.Has "speculativeAuthenticate" then
    match h.IsMaster query.Query with
    | .error _ => (.panicked, ci, [.isMaster query.Query])
    | .ok reply =>
      match reply.Documents with
      | [] => (.panicked, ci, [.isMaster query.Query])
      | d0 :: ds =>
        let d1 := d0.Set "helloOk" (.bool true)
        match h.saslStartSCRAM doc with
        | .error _ => (.panicked, ci, [.isMaster query.Query, .saslStartSCRAM doc])
        | .ok (response, conv) =>
          let d2 := d1.Set "speculativeAuthenticate" (.document (speculativeDocument response))
          (.returned ⟨reply.NumberReturned, d2 :: ds⟩, ⟨conv⟩,
            [.isMaster query.Query, .saslStartSCRAM doc, .setConv])
  else if passThroughCmd cmd && HasSuffix collection ".$cmd" then
    match h.IsMaster query.Query with
    | .error err => (.failed err, ci, [.isMaster query.Query])
    | .ok reply => (.returned reply, ci, [.isMaster query.Query])
  else if decide (cmd = "saslStart") && HasSuffix collection ".$cmd" then
    (.returned ⟨1, [saslStartStubDocument]⟩, ci, [])
  else
    (.failed (.commandError .ErrNotImplemented (unhandledMsg h.isPrintTable cmd collection)
      ("OpQuery: " ++ cmd)), ci, [])

/-! ## `common.GetRequiredParam` -/

/-- Modelled from the spec: `common.GetRequiredParam` is not under src/; a "required
field missing or wrong type in the command document" is "reported as a command error
naming the missing/invalid field" (`MalformedRequest`).  Instance at `string`. -/
def GetRequiredParamString (doc : Document) (key : String) : Except GoError String :=
  match doc.Get key with
  | some (.string s) => .ok s
  | _ => .error (.commandError .MalformedRequest ("required parameter " ++ key) key)

/-- Modelled from the spec: `common.GetRequiredParam` is not under src/; a "required
field missing or wrong type in the command document" is "reported as a command error
naming the missing/invalid field" (`MalformedRequest`).  Instance at `types.Binary`. -/
def GetRequiredParamBinary (doc : Document) (key : String) : Except GoError Binary :=
  match doc.Get key with
  | some (.binary b) => .ok b
  | _ => .error (.commandError .MalformedRequest ("required parameter " ++ key) key)

/-! ## `MsgSASLContinue` (msg_saslcontinue.go) -/

/-- The SCRAM engine `scram.ServerConversation` (an external library), as a parameter:
`Step` answers a challenge and moves the conversation on, `Valid` is its completion
predicate. -/
structure Engine (Conv : Type) where
  Step : Conv → String → Except GoError String × Conv
  Valid : Conv → Bool

/-- Lines 36-41: the bytes of the `payload` field, empty when the lookup fails. -/
def continuePayload (document : Document) : String :=
  match GetRequiredParamBinary document "payload" with
  | .ok binaryPayload => binaryPayload.B
  | .error _ => ""

/-- The reply document of `saslContinue` (lines 56-61). -/
def saslContinueDocument (response : String) : Document :=
  [("conversationId", .int32 1), ("done", .bool true), ("payload", .string response),
    ("ok", .double (float64 1))]

/-- The Go method `Handler.MsgSASLContinue`; `msgDocument` is what `msg.Document()`
returns.  Outcome, connection state afterwards, calls made. -/
def MsgSASLContinue {Conv : Type} (eng : Engine Conv) (ci : ConnInfo Conv)
    (msgDocument : Except GoError Document) : Outcome OpMsg × ConnInfo Conv × List Call :=
  match msgDocument with
  | .error err => (.failed (.lazyError err), ci, [])
  | .ok document =>
    let payload := continuePayload document
    match ci.conv with
    | none => (.panicked, ci, [.step payload])
    | some conv =>
      match eng.Step conv payload with
      | (.error _, conv1) => (.panicked, ⟨some conv1⟩, [.step payload])
      | (.ok response, conv1) =>
        (.returned ⟨[⟨[saslContinueDocument response]⟩]⟩, ⟨some conv1⟩,
          [.step payload, .valid])

/-! ## `MsgDropAllUsersFromDatabase` (msg_dropallusersfromdatabase.go) -/

/-- One result of `qr.Iter.Next()`: a record (its `RecordID()`), an error for which
`errors.Is(err, iterator.ErrIteratorDone)` holds, or another error. -/
inductive NextResult where
  | record (recordID : Int)
  | done
  | failed (err : GoError)

/-- The Go type `backends.Collection`, the two methods the handler calls.  A query result
is the iterator: the results of its successive `Next` calls (the spec: "lazy,
forward-only, finite"); once they are used up `Next` reports done. -/
structure Collection where
  Query : QueryParams → Except GoError (List NextResult)
  DeleteAll : List Int → Except GoError Int

/-- The Go type `backends.Database`. -/
structure Database where
  Collection : String → Except GoError Collection

/-- The Go type `backends.Backend`. -/
structure Backend where
  Database : String → Except GoError Database

/-- The loop of lines 68-76 over the iterator, `ids` being the identifiers appended so
far: the final `ids` or the error of `Next`, and the `Next` calls made. -/
def drain : List NextResult → List Int → Except GoError (List Int) × List Call
  | [], ids => (.ok ids, [.next])
  | .done :: _, ids => (.ok ids, [.next])
  | .failed err :: _, _ => (.error err, [.next])
  | .record recordID :: rest, ids =>
    ((drain rest (ids ++ [recordID])).1, .next :: (drain rest (ids ++ [recordID])).2)

/-- The reply of lines 91-97. -/
def dropAllUsersReply (deleted : Int) : OpMsg :=
  ⟨[⟨[[("n", .int32 deleted), ("ok", .double (float64 1))]]⟩]⟩

/-- The query of lines 56-59. -/
def usersQuery (dbName : String) : QueryParams :=
  ⟨[("db", .string dbName)], true⟩

/-- The Go method `Handler.MsgDropAllUsersFromDatabase`; `msgDocument` is what
`msg.Document()` returns.  Outcome and calls made (the deferred `Close` last). -/
def MsgDropAllUsersFromDatabase (b : Backend) (msgDocument : Except GoError Document) :
    Outcome OpMsg × List Call :=
  match msgDocument with
  | .error err => (.failed (.lazyError err), [])
  | .ok document =>
    match GetRequiredParamString document "$db" with
    | .error err => (.failed err, [])
    | .ok dbName =>
      match b.Database "admin" with
      | .error err => (.failed (.lazyError err), [.database "admin"])
      | .ok adminDB =>
        match adminDB.Collection "system.users" with
        | .error err =>
          (.failed (.lazyError err), [.database "admin", .collection "system.users"])
        | .ok users =>
          let opened : List Call :=
            [.database "admin", .collection "system.users", .query (usersQuery dbName)]
          match users.Query (usersQuery dbName) with
          | .error err => (.failed (.lazyError err), opened)
          | .ok iter =>
            match drain iter [] with
            | (.error err, nexts) => (.failed (.lazyError err), opened ++ nexts ++ [.close])
            | (.ok ids, nexts) =>
              if ids.length > 0 then
                match users.DeleteAll ids with
                | .error err =>
                  (.failed (.lazyError err), opened ++ nexts ++ [.deleteAll ids, .close])
                | .ok deleted =>
                  (.returned (dropAllUsersReply deleted),
                    opened ++ nexts ++ [.deleteAll ids, .close])
              else (.returned (dropAllUsersReply 0), opened ++ nexts ++ [.close])

/-! ## Reading a list of calls -/

/-- The argument of every `DeleteAll` call, in order. -/
def deleteAllCalls : List Call → List (List Int)
  | [] => []
  | .deleteAll ids :: rest => ids :: deleteAllCalls rest
  | _ :: rest => deleteAllCalls rest

/-- The number of `Close` calls. -/
def closeCalls : List Call → Nat
  | [] => 0
  | .close :: rest => closeCalls rest + 1
  | _ :: rest => closeCalls rest

/-- The argument of every `Step` call, in order. -/
def stepCalls : List Call → List String
  | [] => []
  | .step challenge :: rest => challenge :: stepCalls rest
  | _ :: rest => stepCalls rest

/-! ## Predicates of the statements and example collaborators -/

/-- The iterator yields exactly the identifiers `L` and then reports done. -/
def Yields (iter : List NextResult) (L : List Int) : Prop :=
  iter = L.map NextResult.record ∨ ∃ rest, iter = L.map NextResult.record ++ .done :: rest

/-- The iterator yields the identifiers `L` and then an error other than done. -/
def FailsAfter (iter : List NextResult) (L : List Int) (err : GoError) : Prop :=
  ∃ rest, iter = L.map NextResult.record ++ .failed err :: rest

/-- Printable ASCII other than the double quote and the backslash: the runes `%q`
writes unchanged whatever the Unicode tables are. -/
def plainRune (c : Char) : Bool :=
  decide (0x20 ≤ c.toNat) && decide (c.toNat < 0x7F) && decide (c ≠ '"') && decide (c ≠ '\\')

/-- Every rune of the string is a `plainRune`. -/
def plainText (s : String) : Bool := s.data.all plainRune

/-- Collaborators that always succeed: a one-document handshake reply, a start step that
answers `r=server-first` and opens conversation `7`. -/
def acceptingHelpers : Helpers Nat where
  IsMaster := fun _ => .ok ⟨1, [[("ismaster", .bool true), ("ok", .double (float64 1))]]⟩
  saslStartSCRAM := fun _ => .ok ("r=server-first", some 7)
  isPrintTable := fun _ => false

/-- Collaborators whose start step fails (spec 4.2: `Start` "fails with an
`AuthenticationError` if the mechanism is unsupported or the initial payload is
malformed"). -/
def refusingHelpers : Helpers Nat where
  IsMaster := fun _ => .ok ⟨1, [[("ismaster", .bool true), ("ok", .double (float64 1))]]⟩
  saslStartSCRAM := fun _ =>
    .error (.commandError .AuthenticationError "unsupported mechanism" "mechanism")
  isPrintTable := fun _ => false

/-- An engine that accepts every challenge: it answers `v=` followed by the challenge and
counts the steps; the conversation is complete from the second step on. -/
def acceptingEngine : Engine Nat where
  Step := fun conv challenge => (.ok ("v=" ++ challenge), conv + 1)
  Valid := fun conv => decide (2 ≤ conv)

/-- An engine whose step reports a protocol violation. -/
def rejectingEngine : Engine Nat where
  Step := fun conv _ => (.error (.other "scram: invalid proof"), conv)
  Valid := fun _ => false

/-- The handler reaches a successful `Query`: the document is extracted, `$db` is the
string `dbName`, `admin` and `system.users` open, and the identifier-only query filtered
by `db` = `dbName` returns the iterator `iter` on the collection `users`. -/
def QueryOpens (b : Backend) (msgDocument : Except GoError Document) (dbName : String)
    (users : Collection) (iter : List NextResult) : Prop :=
  ∃ (document : Document) (adminDB : Database),
    msgDocument = .ok document ∧ document.Get "$db" = some (.string dbName) ∧
    b.Database "admin" = .ok adminDB ∧ adminDB.Collection "system.users" = .ok users ∧
    users.Query ⟨[("db", .string dbName)], true⟩ = .ok iter

/-- Every step of the handler succeeds: the query opens, the iterator yields identifiers
`L` and then reports done, and `DeleteAll`, issued when `L` is not empty, succeeds. -/
def AllStepsSucceed (b : Backend) (msgDocument : Except GoError Document) : Prop :=
  ∃ (dbName : String) (users : Collection) (iter : List NextResult) (L : List Int),
    QueryOpens b msgDocument dbName users iter ∧ Yields iter L ∧
    (L ≠ [] → ∃ d : Int, users.DeleteAll L = .ok d)

/-- A backend whose `admin`.`system.users` answers every query with the iterator `iter`
and every `DeleteAll` with `delete`. -/
def scriptedBackend (iter : List NextResult) (delete : List Int → Except GoError Int) :
    Backend where
  Database := fun _ => .ok ⟨fun _ => .ok ⟨fun _ => .ok iter, delete⟩⟩

/-! ## Lemmas on documents and quoting -/

theorem Document.Get_Set_self (d : Document) (key : String) (v : Value) :
    (d.Set key v).Get key = some v := by
  induction d with
  | nil => simp [Document.Set, Document.Get]
  | cons f rest ih =>
    obtain ⟨k, x⟩ := f
    by_cases hk : k = key
    · simp [Document.Set, Document.Get, hk]
    · simp [Document.Set, Document.Get, hk, ih]

theorem Document.Get_Set_other (d : Document) (key other : String) (v : Value)
    (hne : other ≠ key) : (d.Set key v).Get other = d.Get other := by
  have hne2 : ¬ key = other := fun h => hne h.symm
  induction d with
  | nil => simp [Document.Set, Document.Get, hne2]
  | cons f rest ih =>
    obtain ⟨k, x⟩ := f
    by_cases hk : k = key
    · subst hk
      simp [Document.Set, Document.Get, hne2]
    · by_cases hko : k = other
      · subst hko
        simp [Document.Set, Document.Get, hk]
      · simp [Document.Set, Document.Get, hk, hko, ih]

theorem Document.Get_of_Has_false (d : Document) (key : String)
    (h : d.Has key = false) : d.Get key = none := by
  induction d with
  | nil => rfl
  | cons f rest ih =>
    obtain ⟨k, x⟩ := f
    by_cases hk : k = key
    · simp [Document.Has, hk] at h
    · simp [Document.Has, hk] at h
      simp [Document.Get, hk, ih h]

theorem appendEscapedRune_plain (table : Nat → Bool) (c : Char) (h : plainRune c = true) :
    appendEscapedRune table c = [c] := by
  simp only [plainRune, Bool.and_eq_true, decide_eq_true_eq] at h
  obtain ⟨⟨⟨h1, h2⟩, h3⟩, h4⟩ := h
  have hp : IsPrint table c.toNat = true := by
    have h5 : c.toNat ≤ 0xFF := by omega
    simp [IsPrint, h5, h1, h2]
  simp [appendEscapedRune, h3, h4, hp]

theorem quoteRunes_plain (table : Nat → Bool) (cs : List Char)
    (h : cs.all plainRune = true) : quoteRunes table cs = cs := by
  induction cs with
  | nil => rfl
  | cons c cs ih =>
    simp only [List.all_cons, Bool.and_eq_true] at h
    simp [quoteRunes, appendEscapedRune_plain table c h.1, ih h.2]

theorem Quote_plain (table : Nat → Bool) (s : String) (h : plainText s = true) :
    Quote table s = "\"" ++ s ++ "\"" := by
  apply String.ext
  simp [Quote, quoteRunes_plain table s.data h, String.data_append]

/-! ## `CmdQuery`: the fall-through error (C1) -/

/-- C1 (amended): for every legacy query that matches none of the three rules of `CmdQuery`
(speculative handshake, handshake under a `.$cmd` namespace, `saslStart` under a `.$cmd`
namespace), `CmdQuery` returns no reply and a NotImplemented command error whose message
is `CmdQuery: unhandled command <q name> for collection <q namespace>`, `q` being the
quoting of Go's `%q`; the connection is untouched and no collaborator is called.  When
the command name and the namespace consist of printable ASCII other than the double quote
and the backslash, `q` only adds the surrounding quotes: the message is
`CmdQuery: unhandled command "<name>" for collection "<namespace>"` and holds both
verbatim, as substrings. -/
theorem CmdQuery_unhandled_notImplemented {Conv : Type} (h : Helpers Conv)
    (ci : ConnInfo Conv) (query : OpQuery)
    (h1 : ¬ (speculativeCmd query.Query.Command = true ∧
      query.Query.Has "speculativeAuthenticate" = true))
    (h2 : ¬ (passThroughCmd query.Query.Command = true ∧
      HasSuffix query.FullCollectionName ".$cmd" = true))
    (h3 : ¬ (query.Query.Command = "saslStart" ∧
      HasSuffix query.FullCollectionName ".$cmd" = true)) :
    CmdQuery h ci query =
      (.failed (.commandError .ErrNotImplemented
        ("CmdQuery: unhandled command " ++ Quote h.isPrintTable query.Query.Command ++
          " for collection " ++ Quote h.isPrintTable query.FullCollectionName)
        ("OpQuery: " ++ query.Query.Command)), ci, []) ∧
    (plainText query.Query.Command = true → plainText query.FullCollectionName = true →
      "CmdQuery: unhandled command " ++ Quote h.isPrintTable query.Query.Command ++
          " for collection " ++ Quote h.isPrintTable query.FullCollectionName =
        "CmdQuery: unhandled command \"" ++ query.Query.Command ++
          "\" for collection \"" ++ query.FullCollectionName ++ "\"" ∧
      query.Query.Command.data <:+:
        ("CmdQuery: unhandled command " ++ Quote h.isPrintTable query.Query.Command ++
          " for collection " ++ Quote h.isPrintTable query.FullCollectionName).data ∧
      query.FullCollectionName.data <:+:
        ("CmdQuery: unhandled command " ++ Quote h.isPrintTable query.Query.Command ++
          " for collection " ++ Quote h.isPrintTable query.FullCollectionName).data) := by
  refine ⟨?_, ?_⟩
  · have e1 : (speculativeCmd query.Query.Command &&
        query.Query.Has "speculativeAuthenticate") = false := by
      cases ha : speculativeCmd query.Query.Command <;>
        cases hb : query.Query.Has "speculativeAuthenticate" <;> simp_all
    have e2 : (passThroughCmd query.Query.Command &&
        HasSuffix query.FullCollectionName ".$cmd") = false := by
      cases ha : passThroughCmd query.Query.Command <;>
        cases hb : HasSuffix query.FullCollectionName ".$cmd" <;> simp_all
    have e3 : (decide (query.Query.Command = "saslStart") &&
        HasSuffix query.FullCollectionName ".$cmd") = false := by
      cases hb : HasSuffix query.FullCollectionName ".$cmd"
      · simp
      · have hn : ¬ query.Query.Command = "saslStart" := fun hc => h3 ⟨hc, hb⟩
        simp [hn]
    simp only [CmdQuery, e1, e2, e3, unhandledMsg]
    rfl
  · intro hc hn
    rw [Quote_plain h.isPrintTable _ hc, Quote_plain h.isPrintTable _ hn]
    refine ⟨?_, ?_, ?_⟩
    · apply String.ext
      simp [String.data_append, List.append_assoc]
    · refine ⟨("CmdQuery: unhandled command " ++ "\"").data,
        ("\"" ++ " for collection " ++ ("\"" ++ query.FullCollectionName ++ "\"")).data, ?_⟩
      simp [String.data_append, List.append_assoc]
    · refine ⟨("CmdQuery: unhandled command " ++ ("\"" ++ query.Query.Command ++ "\"") ++
        " for collection " ++ "\"").data, "\"".data, ?_⟩
      simp [String.data_append, List.append_assoc]

/-- Witness of `CmdQuery_unhandled_notImplemented`: the query `(find: 1)` on `db.coll`. -/
theorem CmdQuery_unhandled_notImplemented_witness :
    CmdQuery acceptingHelpers ⟨none⟩ ⟨"db.coll", [("find", .int32 1)]⟩ =
      (.failed (.commandError .ErrNotImplemented
        "CmdQuery: unhandled command \"find\" for collection \"db.coll\""
        "OpQuery: find"), ⟨none⟩, []) :=
  (CmdQuery_unhandled_notImplemented acceptingHelpers ⟨none⟩
    ⟨"db.coll", [("find", .int32 1)]⟩ (by decide) (by decide) (by decide)).1

/-- C1 (counterexample): the query whose command name is `a"b`, on `db.coll`, matches no
rule; the message of its error holds the escaped name `a\"b`, is not the message with the
name verbatim, and does not contain the name `a"b` as a substring. -/
theorem CmdQuery_unhandled_name_not_verbatim :
    CmdQuery acceptingHelpers ⟨none⟩ ⟨"db.coll", [("a\"b", .int32 1)]⟩ =
      (.failed (.commandError .ErrNotImplemented
        "CmdQuery: unhandled command \"a\\\"b\" for collection \"db.coll\""
        "OpQuery: a\"b"), ⟨none⟩, []) ∧
    "CmdQuery: unhandled command \"a\\\"b\" for collection \"db.coll\"" ≠
      "CmdQuery: unhandled command \"" ++ "a\"b" ++ "\" for collection \"" ++ "db.coll" ++
        "\"" ∧
    ¬ ("a\"b".data <:+:
      "CmdQuery: unhandled command \"a\\\"b\" for collection \"db.coll\"".data) := by
  refine ⟨rfl, by decide, by decide⟩

/-! ## `CmdQuery`: the legacy `saslStart` stub (C3) -/

/-- C3: for every legacy query whose command name is `saslStart` and whose namespace ends
with `.$cmd`, whatever else the document holds, `CmdQuery` returns without error a reply
with NumberReturned = 1 and exactly one document, with the fields conversationId = int32 1,
done = true, payload = the empty byte blob, ok = 1.0 in this order; no collaborator is
called (the SCRAM engine is not started) and the connection's conversation is unchanged. -/
theorem CmdQuery_saslStart_stub {Conv : Type} (h : Helpers Conv) (ci : ConnInfo Conv)
    (query : OpQuery) (hcmd : query.Query.Command = "saslStart")
    (hns : HasSuffix query.FullCollectionName ".$cmd" = true) :
    CmdQuery h ci query =
      (.returned ⟨1, [[("conversationId", .int32 1), ("done", .bool true),
        ("payload", .binary ⟨0, ""⟩), ("ok", .double (Float.ofNat 1))]]⟩, ci, []) := by
  have e1 : speculativeCmd query.Query.Command = false := by rw [hcmd]; decide
  have e2 : passThroughCmd query.Query.Command = false := by rw [hcmd]; decide
  simp only [CmdQuery, e1, e2, hcmd, hns]
  rfl

/-- Witness of `CmdQuery_saslStart_stub`: a `saslStart` with a mechanism, a payload and
an extraneous field, on `admin.$cmd`, on a connection that holds conversation `3`. -/
theorem CmdQuery_saslStart_stub_witness :
    CmdQuery refusingHelpers ⟨some 3⟩ ⟨"admin.$cmd", [("saslStart", .int32 1),
        ("mechanism", .string "SCRAM-SHA-256"), ("payload", .binary ⟨0, "n,,n=user,r=abc"⟩),
        ("extra", .null)]⟩ =
      (.returned ⟨1, [[("conversationId", .int32 1), ("done", .bool true),
        ("payload", .binary ⟨0, ""⟩), ("ok", .double (Float.ofNat 1))]]⟩, ⟨some 3⟩, []) :=
  CmdQuery_saslStart_stub refusingHelpers ⟨some 3⟩ _ (by decide) (by decide)

/-! ## `CmdQuery`: the spellings of the handshake command (C8) -/

/-- C8 (the code at the failing inputs): the speculative rule tests the names `ismaster`
and `helloOk`, the pass-through rule `ismaster` and `isMaster`.  `isMaster` is accepted by
the pass-through rule only and `helloOk` by the speculative rule only; so the query
`(isMaster: 1, speculativeAuthenticate: ...)` on `admin.$cmd` gets the plain handshake
reply, with no start step and no conversation stored. -/
theorem CmdQuery_handshake_spellings_differ :
    speculativeCmd "isMaster" = false ∧ passThroughCmd "isMaster" = true ∧
    speculativeCmd "helloOk" = true ∧ passThroughCmd "helloOk" = false ∧
    ¬ (∀ c : String, speculativeCmd c = true ↔ passThroughCmd c = true) ∧
    CmdQuery acceptingHelpers ⟨none⟩ ⟨"admin.$cmd", [("isMaster", .int32 1),
        ("speculativeAuthenticate", .document [("mechanism", .string "SCRAM-SHA-256"),
          ("payload", .binary ⟨0, "n,,n=user,r=abc"⟩)])]⟩ =
      (.returned ⟨1, [[("ismaster", .bool true), ("ok", .double (Float.ofNat 1))]]⟩, ⟨none⟩,
        [.isMaster [("isMaster", .int32 1),
          ("speculativeAuthenticate", .document [("mechanism", .string "SCRAM-SHA-256"),
            ("payload", .binary ⟨0, "n,,n=user,r=abc"⟩)])]]) := by
  refine ⟨by decide, by decide, by decide, by decide, ?_, rfl⟩
  intro hall
  have h1 := (hall "helloOk").1 (by decide)
  revert h1
  decide

/-! ## `CmdQuery`: speculative authentication (C2) -/

/-- The path of the speculative rule on which both helpers succeed: for every legacy
query whose command name is `ismaster`, whose document has a `speculativeAuthenticate`
field, and for which `common.IsMaster` succeeds with at least one document and the start
step `saslStartSCRAM` succeeds, `CmdQuery` returns a reply whose first document is the
first document of the handshake reply with `helloOk` set to true and
`speculativeAuthenticate` set to the document conversationId = int32 1, done = false,
payload = the response of the start step, ok = 1.0 (these four fields, in this order),
every other field being as in the handshake reply; the conversation of the start step is
stored on the connection; the calls made are the handshake, the start step and the store,
each once, so no later rule is evaluated. -/
theorem CmdQuery_speculative_reply {Conv : Type} (h : Helpers Conv) (ci : ConnInfo Conv)
    (query : OpQuery) (reply : OpReply) (d0 : Document) (ds : List Document)
    (response : String) (conv : Option Conv)
    (hcmd : query.Query.Command = "ismaster")
    (hspec : query.Query.Has "speculativeAuthenticate" = true)
    (hmaster : h.IsMaster query.Query = .ok reply)
    (hdocs : reply.Documents = d0 :: ds)
    (hstart : h.saslStartSCRAM query.Query = .ok (response, conv)) :
    ∃ first : Document,
      CmdQuery h ci query =
        (.returned ⟨reply.NumberReturned, first :: ds⟩, ⟨conv⟩,
          [.isMaster query.Query, .saslStartSCRAM query.Query, .setConv]) ∧
      first = (d0.Set "helloOk" (.bool true)).Set "speculativeAuthenticate"
        (.document [("conversationId", .int32 1), ("done", .bool false),
          ("payload", .string response), ("ok", .double (Float.ofNat 1))]) ∧
      first.Get "helloOk" = some (.bool true) ∧
      first.Get "speculativeAuthenticate" =
        some (.document [("conversationId", .int32 1), ("done", .bool false),
          ("payload", .string response), ("ok", .double (Float.ofNat 1))]) ∧
      ∀ key : String, key ≠ "helloOk" → key ≠ "speculativeAuthenticate" →
        first.Get key = d0.Get key := by
  refine ⟨_, ?_, rfl, ?_, ?_, ?_⟩
  · have e1 : speculativeCmd query.Query.Command = true := by
      rw [hcmd]; decide
    simp only [CmdQuery, e1, hspec, hmaster, hdocs, hstart]
    rfl
  · rw [Document.Get_Set_other _ _ _ _ (by decide), Document.Get_Set_self]
  · rw [Document.Get_Set_self]
  · intro key hk1 hk2
    rw [Document.Get_Set_other _ _ _ _ hk2, Document.Get_Set_other _ _ _ _ hk1]

/-- The scenario of the spec, `(ismaster: true, speculativeAuthenticate: (mechanism:
"SCRAM-SHA-256", payload: ...))`, with collaborators that succeed. -/
theorem CmdQuery_speculative_reply_scenario :
    ∃ first : Document,
      CmdQuery acceptingHelpers ⟨none⟩ ⟨"admin.$cmd", [("ismaster", .bool true),
        ("speculativeAuthenticate", .document [("mechanism", .string "SCRAM-SHA-256"),
          ("payload", .binary ⟨0, "n,,n=user,r=abc"⟩)])]⟩ =
        (.returned ⟨1, first :: []⟩, ⟨some 7⟩,
          [.isMaster [("ismaster", .bool true),
            ("speculativeAuthenticate", .document [("mechanism", .string "SCRAM-SHA-256"),
              ("payload", .binary ⟨0, "n,,n=user,r=abc"⟩)])],
           .saslStartSCRAM [("ismaster", .bool true),
            ("speculativeAuthenticate", .document [("mechanism", .string "SCRAM-SHA-256"),
              ("payload", .binary ⟨0, "n,,n=user,r=abc"⟩)])], .setConv]) ∧
      first = [("ismaster", .bool true), ("ok", .double (Float.ofNat 1)),
        ("helloOk", .bool true),
        ("speculativeAuthenticate", .document [("conversationId", .int32 1),
          ("done", .bool false), ("payload", .string "r=server-first"),
          ("ok", .double (Float.ofNat 1))])] := by
  obtain ⟨first, hrun, hfirst, _⟩ := CmdQuery_speculative_reply acceptingHelpers ⟨none⟩
    ⟨"admin.$cmd", [("ismaster", .bool true),
      ("speculativeAuthenticate", .document [("mechanism", .string "SCRAM-SHA-256"),
        ("payload", .binary ⟨0, "n,,n=user,r=abc"⟩)])]⟩
    ⟨1, [[("ismaster", .bool true), ("ok", .double (Float.ofNat 1))]]⟩
    [("ismaster", .bool true), ("ok", .double (Float.ofNat 1))] [] "r=server-first" (some 7)
    (by decide) (by decide) rfl rfl rfl
  exact ⟨first, hrun, hfirst.trans rfl⟩

/-- C2 (the code at the failing inputs): for every legacy query whose command name is
`ismaster`, whose document has a `speculativeAuthenticate` field and for which
`common.IsMaster` succeeds with at least one document, whenever the start step
`saslStartSCRAM` reports an error `CmdQuery` panics in the `must.NoError` of line 51: it
returns neither a reply nor an error result, the calls made are the handshake and the
start step, and the connection's conversation is left as it was. -/
theorem CmdQuery_speculative_start_error_panics {Conv : Type} (h : Helpers Conv)
    (ci : ConnInfo Conv) (query : OpQuery) (reply : OpReply) (d0 : Document)
    (ds : List Document) (err : GoError)
    (hcmd : query.Query.Command = "ismaster")
    (hspec : query.Query.Has "speculativeAuthenticate" = true)
    (hmaster : h.IsMaster query.Query = .ok reply)
    (hdocs : reply.Documents = d0 :: ds)
    (hstart : h.saslStartSCRAM query.Query = .error err) :
    CmdQuery h ci query =
        (.panicked, ci, [.isMaster query.Query, .saslStartSCRAM query.Query]) ∧
    (∀ r : OpReply, (CmdQuery h ci query).1 ≠ .returned r) ∧
    (∀ e : GoError, (CmdQuery h ci query).1 ≠ .failed e) := by
  have e1 : speculativeCmd query.Query.Command = true := by
    rw [hcmd]; decide
  have hrun : CmdQuery h ci query =
      (.panicked, ci, [.isMaster query.Query, .saslStartSCRAM query.Query]) := by
    simp only [CmdQuery, e1, hspec, hmaster, hdocs, hstart]
    rfl
  refine ⟨hrun, ?_, ?_⟩
  · intro r hr
    rw [hrun] at hr
    cases hr
  · intro e he
    rw [hrun] at he
    cases he

/-- Witness of `CmdQuery_speculative_start_error_panics`: the query `(ismaster: true,
speculativeAuthenticate: (mechanism: "PLAIN"))` with a start step that refuses it. -/
theorem CmdQuery_speculative_start_error_panics_witness :
    CmdQuery refusingHelpers ⟨none⟩ ⟨"admin.$cmd", [("ismaster", .bool true),
        ("speculativeAuthenticate", .document [("mechanism", .string "PLAIN")])]⟩ =
      (.panicked, ⟨none⟩,
        [.isMaster [("ismaster", .bool true),
          ("speculativeAuthenticate", .document [("mechanism", .string "PLAIN")])],
         .saslStartSCRAM [("ismaster", .bool true),
          ("speculativeAuthenticate", .document [("mechanism", .string "PLAIN")])]]) :=
  (CmdQuery_speculative_start_error_panics refusingHelpers ⟨none⟩
    ⟨"admin.$cmd", [("ismaster", .bool true),
      ("speculativeAuthenticate", .document [("mechanism", .string "PLAIN")])]⟩
    ⟨1, [[("ismaster", .bool true), ("ok", .double (Float.ofNat 1))]]⟩
    [("ismaster", .bool true), ("ok", .double (Float.ofNat 1))] []
    (.commandError .AuthenticationError "unsupported mechanism" "mechanism")
    (by decide) (by decide) rfl rfl rfl).1

/-! ## `MsgSASLContinue` (C6, C7, C9) -/

theorem continuePayload_of_absent (document : Document)
    (hno : document.Has "payload" = false) : continuePayload document = "" := by
  simp [continuePayload, GetRequiredParamBinary, Document.Get_of_Has_false document _ hno]

theorem MsgSASLContinue_ok {Conv : Type} (eng : Engine Conv) (ci : ConnInfo Conv)
    (document : Document) (conv conv1 : Conv) (response : String)
    (hconv : ci.conv = some conv)
    (hstep : eng.Step conv (continuePayload document) = (.ok response, conv1)) :
    MsgSASLContinue eng ci (.ok document) =
      (.returned ⟨[⟨[saslContinueDocument response]⟩]⟩, ⟨some conv1⟩,
        [.step (continuePayload document), .valid]) := by
  simp only [MsgSASLContinue, hconv, hstep]

theorem MsgSASLContinue_not_failed {Conv : Type} (eng : Engine Conv) (ci : ConnInfo Conv)
    (document : Document) (err : GoError) :
    (MsgSASLContinue eng ci (.ok document)).1 ≠ .failed err := by
  cases hconv : ci.conv with
  | none => simp [MsgSASLContinue, hconv]
  | some conv =>
    rcases hstep : eng.Step conv (continuePayload document) with ⟨res, conv1⟩
    cases res <;> simp [MsgSASLContinue, hconv, hstep]

theorem MsgSASLContinue_stepCalls {Conv : Type} (eng : Engine Conv) (ci : ConnInfo Conv)
    (document : Document) :
    stepCalls (MsgSASLContinue eng ci (.ok document)).2.2 = [continuePayload document] := by
  cases hconv : ci.conv with
  | none => simp [MsgSASLContinue, hconv, stepCalls]
  | some conv =>
    rcases hstep : eng.Step conv (continuePayload document) with ⟨res, conv1⟩
    cases res <;> simp [MsgSASLContinue, hconv, hstep, stepCalls]

/-- C6: for every `saslContinue` document with no `payload` field, the failed lookup is
replaced by the empty payload: `MsgSASLContinue` never returns an error result (so no
missing-field, MalformedRequest error), `Step` is called exactly once and with the empty
string, and when the connection's engine accepts the empty challenge with a response the
handler returns the reply built from that response. -/
theorem MsgSASLContinue_absent_payload {Conv : Type} (eng : Engine Conv)
    (ci : ConnInfo Conv) (document : Document) (hno : document.Has "payload" = false) :
    continuePayload document = "" ∧
    stepCalls (MsgSASLContinue eng ci (.ok document)).2.2 = [""] ∧
    (∀ err : GoError, (MsgSASLContinue eng ci (.ok document)).1 ≠ .failed err) ∧
    (∀ (conv conv1 : Conv) (response : String), ci.conv = some conv →
      eng.Step conv "" = (.ok response, conv1) →
      MsgSASLContinue eng ci (.ok document) =
        (.returned ⟨[⟨[[("conversationId", .int32 1), ("done", .bool true),
          ("payload", .string response), ("ok", .double (Float.ofNat 1))]]⟩]⟩, ⟨some conv1⟩,
          [.step "", .valid])) := by
  have hp := continuePayload_of_absent document hno
  refine ⟨hp, ?_, MsgSASLContinue_not_failed eng ci document, ?_⟩
  · rw [MsgSASLContinue_stepCalls, hp]
  · intro conv conv1 response hconv hstep
    rw [← hp] at hstep
    rw [MsgSASLContinue_ok eng ci document conv conv1 response hconv hstep, hp]
    rfl

/-- Witness of `MsgSASLContinue_absent_payload`: `(saslContinue: 1, conversationId: 1)`
on a connection whose conversation has made one step. -/
theorem MsgSASLContinue_absent_payload_witness :
    MsgSASLContinue acceptingEngine ⟨some 1⟩
        (.ok [("saslContinue", .int32 1), ("conversationId", .int32 1)]) =
      (.returned ⟨[⟨[[("conversationId", .int32 1), ("done", .bool true),
        ("payload", .string "v="), ("ok", .double (Float.ofNat 1))]]⟩]⟩, ⟨some 2⟩,
        [.step "", .valid]) :=
  (MsgSASLContinue_absent_payload acceptingEngine ⟨some 1⟩
    [("saslContinue", .int32 1), ("conversationId", .int32 1)] (by decide)).2.2.2
    1 2 "v=" rfl rfl

/-- C7: for every `saslContinue` command whose engine step succeeds with response `r`,
`MsgSASLContinue` replies with exactly one document, with the fields conversationId =
int32 1, done = true, payload = `r`, ok = 1.0 in this order, and the connection keeps the
stepped conversation; `Step` is called exactly once, with the bytes the handler read from
the `payload` field: exactly the bytes of the field when it is a byte blob; and the reply
is the same whatever the engine's `Valid` answers (`done` is the fixed value true). -/
theorem MsgSASLContinue_reply {Conv : Type} (eng : Engine Conv) (ci : ConnInfo Conv)
    (document : Document) (conv conv1 : Conv) (r : String)
    (hconv : ci.conv = some conv)
    (hstep : eng.Step conv (continuePayload document) = (.ok r, conv1)) :
    MsgSASLContinue eng ci (.ok document) =
      (.returned ⟨[⟨[[("conversationId", .int32 1), ("done", .bool true),
        ("payload", .string r), ("ok", .double (Float.ofNat 1))]]⟩]⟩, ⟨some conv1⟩,
        [.step (continuePayload document), .valid]) ∧
    stepCalls (MsgSASLContinue eng ci (.ok document)).2.2 = [continuePayload document] ∧
    (∀ blob : Binary, document.Get "payload" = some (.binary blob) →
      continuePayload document = blob.B) ∧
    (∀ valid : Conv → Bool,
      MsgSASLContinue ⟨eng.Step, valid⟩ ci (.ok document) =
        MsgSASLContinue eng ci (.ok document)) := by
  refine ⟨?_, MsgSASLContinue_stepCalls eng ci document, ?_, ?_⟩
  · rw [MsgSASLContinue_ok eng ci document conv conv1 r hconv hstep]
    rfl
  · intro blob hget
    simp [continuePayload, GetRequiredParamBinary, hget]
  · intro valid
    rfl

/-- Witness of `MsgSASLContinue_reply`: a `saslContinue` with the payload `c=biws,r=abc`
on a connection whose conversation has made one step (its `Valid` turns true). -/
theorem MsgSASLContinue_reply_witness :
    MsgSASLContinue acceptingEngine ⟨some 1⟩
        (.ok [("saslContinue", .int32 1), ("conversationId", .int32 1),
          ("payload", .binary ⟨0, "c=biws,r=abc"⟩)]) =
      (.returned ⟨[⟨[[("conversationId", .int32 1), ("done", .bool true),
        ("payload", .string "v=c=biws,r=abc"), ("ok", .double (Float.ofNat 1))]]⟩]⟩, ⟨some 2⟩,
        [.step "c=biws,r=abc", .valid]) :=
  (MsgSASLContinue_reply acceptingEngine ⟨some 1⟩
    [("saslContinue", .int32 1), ("conversationId", .int32 1),
      ("payload", .binary ⟨0, "c=biws,r=abc"⟩)] 1 2 "v=c=biws,r=abc" rfl rfl).1

/-- C9 (the code at the failing inputs): whenever the `Step` of the connection's engine
reports an error, `MsgSASLContinue` panics in `must.NoError`: it returns neither a reply
nor an error result (no AuthenticationError). -/
theorem MsgSASLContinue_step_error_panics {Conv : Type} (eng : Engine Conv)
    (ci : ConnInfo Conv) (document : Document) (conv conv1 : Conv) (err : GoError)
    (hconv : ci.conv = some conv)
    (hstep : eng.Step conv (continuePayload document) = (.error err, conv1)) :
    MsgSASLContinue eng ci (.ok document) =
      (.panicked, ⟨some conv1⟩, [.step (continuePayload document)]) := by
  simp only [MsgSASLContinue, hconv, hstep]

/-- Witness of `MsgSASLContinue_step_error_panics`: a `saslContinue` whose payload the
engine rejects. -/
theorem MsgSASLContinue_step_error_panics_witness :
    MsgSASLContinue rejectingEngine ⟨some 1⟩
        (.ok [("saslContinue", .int32 1), ("conversationId", .int32 1),
          ("payload", .binary ⟨0, "c=biws,r=abc,p=bad"⟩)]) =
      (.panicked, ⟨some 1⟩, [.step "c=biws,r=abc,p=bad"]) :=
  MsgSASLContinue_step_error_panics rejectingEngine ⟨some 1⟩
    [("saslContinue", .int32 1), ("conversationId", .int32 1),
      ("payload", .binary ⟨0, "c=biws,r=abc,p=bad"⟩)] 1 1 (.other "scram: invalid proof")
    rfl rfl

/-! ## `MsgDropAllUsersFromDatabase` (C4, C5, C10) -/

theorem drain_of_yields (iter : List NextResult) (L : List Int) (hY : Yields iter L)
    (ids : List Int) :
    drain iter ids = (.ok (ids ++ L), List.replicate (L.length + 1) Call.next) := by
  induction L generalizing iter ids with
  | nil =>
    rcases hY with h | ⟨rest, h⟩
    · subst h; simp [drain]
    · subst h; simp [drain]
  | cons x L ih =>
    have hrec : ∀ rest, Yields rest L → drain (NextResult.record x :: rest) ids =
        (.ok (ids ++ x :: L), List.replicate (L.length + 1 + 1) Call.next) := by
      intro rest hr
      simp [drain, ih rest hr (ids ++ [x]), List.replicate_succ]
    rcases hY with h | ⟨rest, h⟩
    · subst h
      exact hrec _ (Or.inl rfl)
    · subst h
      exact hrec _ (Or.inr ⟨rest, rfl⟩)

theorem drain_of_failsAfter (iter : List NextResult) (L : List Int) (err : GoError)
    (hF : FailsAfter iter L err) (ids : List Int) :
    drain iter ids = (.error err, List.replicate (L.length + 1) Call.next) := by
  induction L generalizing iter ids with
  | nil =>
    obtain ⟨rest, h⟩ := hF
    subst h; simp [drain]
  | cons x L ih =>
    obtain ⟨rest, h⟩ := hF
    subst h
    have hr : FailsAfter (L.map NextResult.record ++ NextResult.failed err :: rest) L err :=
      ⟨rest, rfl⟩
    simp [drain, ih _ hr (ids ++ [x]), List.replicate_succ]

theorem yields_or_failsAfter (iter : List NextResult) :
    (∃ L, Yields iter L) ∨ (∃ L err, FailsAfter iter L err) := by
  induction iter with
  | nil => exact Or.inl ⟨[], Or.inl rfl⟩
  | cons r rest ih =>
    cases r with
    | done => exact Or.inl ⟨[], Or.inr ⟨rest, rfl⟩⟩
    | failed err => exact Or.inr ⟨[], err, rest, rfl⟩
    | record x =>
      rcases ih with ⟨L, h | ⟨tl, h⟩⟩ | ⟨L, err, tl, h⟩
      · exact Or.inl ⟨x :: L, Or.inl (by simp [h])⟩
      · exact Or.inl ⟨x :: L, Or.inr ⟨tl, by simp [h]⟩⟩
      · exact Or.inr ⟨x :: L, err, tl, by simp [h]⟩

theorem deleteAllCalls_append (xs ys : List Call) :
    deleteAllCalls (xs ++ ys) = deleteAllCalls xs ++ deleteAllCalls ys := by
  induction xs with
  | nil => rfl
  | cons c xs ih => cases c <;> simp [deleteAllCalls, ih]

theorem closeCalls_append (xs ys : List Call) :
    closeCalls (xs ++ ys) = closeCalls xs + closeCalls ys := by
  induction xs with
  | nil => simp [closeCalls]
  | cons c xs ih =>
    cases c <;> simp [closeCalls, ih]
    omega

theorem deleteAllCalls_replicate_next (n : Nat) :
    deleteAllCalls (List.replicate n Call.next) = [] := by
  induction n with
  | zero => rfl
  | succ n ih => simp [List.replicate_succ, deleteAllCalls, ih]

theorem closeCalls_replicate_next (n : Nat) :
    closeCalls (List.replicate n Call.next) = 0 := by
  induction n with
  | zero => rfl
  | succ n ih => simp [List.replicate_succ, closeCalls, ih]

theorem GetRequiredParamString_of_get (document : Document) (key s : String)
    (h : document.Get key = some (.string s)) :
    GetRequiredParamString document key = .ok s := by
  simp [GetRequiredParamString, h]

theorem GetRequiredParamString_ok (document : Document) (key s : String)
    (h : GetRequiredParamString document key = .ok s) :
    document.Get key = some (.string s) := by
  unfold GetRequiredParamString at h
  split at h
  · rename_i s1 hs
    cases h
    exact hs
  · cases h

theorem MsgDropAllUsersFromDatabase_opened (b : Backend)
    (msgDocument : Except GoError Document) (dbName : String) (users : Collection)
    (iter : List NextResult) (hO : QueryOpens b msgDocument dbName users iter) :
    MsgDropAllUsersFromDatabase b msgDocument =
      match drain iter [] with
      | (.error err, nexts) =>
        (.failed (.lazyError err),
          [.database "admin", .collection "system.users", .query (usersQuery dbName)] ++
            nexts ++ [.close])
      | (.ok ids, nexts) =>
        if ids.length > 0 then
          match users.DeleteAll ids with
          | .error err =>
            (.failed (.lazyError err),
              [.database "admin", .collection "system.users", .query (usersQuery dbName)] ++
                nexts ++ [.deleteAll ids, .close])
          | .ok deleted =>
            (.returned (dropAllUsersReply deleted),
              [.database "admin", .collection "system.users", .query (usersQuery dbName)] ++
                nexts ++ [.deleteAll ids, .close])
        else
          (.returned (dropAllUsersReply 0),
            [.database "admin", .collection "system.users", .query (usersQuery dbName)] ++
              nexts ++ [.close]) := by
  obtain ⟨document, adminDB, hdoc, hget, hA, hC, hQ⟩ := hO
  subst hdoc
  have hQ2 : users.Query (usersQuery dbName) = .ok iter := hQ
  simp only [MsgDropAllUsersFromDatabase, GetRequiredParamString_of_get document _ _ hget,
    hA, hC, hQ2]

theorem MsgDropAllUsersFromDatabase_none_seen (b : Backend)
    (msgDocument : Except GoError Document) (dbName : String) (users : Collection)
    (iter : List NextResult) (hO : QueryOpens b msgDocument dbName users iter)
    (hY : Yields iter []) :
    MsgDropAllUsersFromDatabase b msgDocument =
      (.returned (dropAllUsersReply 0),
        [.database "admin", .collection "system.users", .query (usersQuery dbName),
          .next, .close]) := by
  rw [MsgDropAllUsersFromDatabase_opened b msgDocument dbName users iter hO,
    drain_of_yields iter [] hY []]
  simp

theorem MsgDropAllUsersFromDatabase_deleted (b : Backend)
    (msgDocument : Except GoError Document) (dbName : String) (users : Collection)
    (iter : List NextResult) (L : List Int) (d : Int)
    (hO : QueryOpens b msgDocument dbName users iter)
    (hY : Yields iter L) (hne : L ≠ []) (hD : users.DeleteAll L = .ok d) :
    MsgDropAllUsersFromDatabase b msgDocument =
      (.returned (dropAllUsersReply d),
        [.database "admin", .collection "system.users", .query (usersQuery dbName)] ++
          List.replicate (L.length + 1) Call.next ++ [.deleteAll L, .close]) := by
  rw [MsgDropAllUsersFromDatabase_opened b msgDocument dbName users iter hO,
    drain_of_yields iter L hY []]
  have hlen : 0 < L.length := List.length_pos.mpr hne
  simp [hlen, hD]

theorem MsgDropAllUsersFromDatabase_delete_failed (b : Backend)
    (msgDocument : Except GoError Document) (dbName : String) (users : Collection)
    (iter : List NextResult) (L : List Int) (err : GoError)
    (hO : QueryOpens b msgDocument dbName users iter)
    (hY : Yields iter L) (hne : L ≠ []) (hD : users.DeleteAll L = .error err) :
    MsgDropAllUsersFromDatabase b msgDocument =
      (.failed (.lazyError err),
        [.database "admin", .collection "system.users", .query (usersQuery dbName)] ++
          List.replicate (L.length + 1) Call.next ++ [.deleteAll L, .close]) := by
  rw [MsgDropAllUsersFromDatabase_opened b msgDocument dbName users iter hO,
    drain_of_yields iter L hY []]
  have hlen : 0 < L.length := List.length_pos.mpr hne
  simp [hlen, hD]

theorem MsgDropAllUsersFromDatabase_next_failed (b : Backend)
    (msgDocument : Except GoError Document) (dbName : String) (users : Collection)
    (iter : List NextResult) (L : List Int) (err : GoError)
    (hO : QueryOpens b msgDocument dbName users iter) (hF : FailsAfter iter L err) :
    MsgDropAllUsersFromDatabase b msgDocument =
      (.failed (.lazyError err),
        [.database "admin", .collection "system.users", .query (usersQuery dbName)] ++
          List.replicate (L.length + 1) Call.next ++ [.close]) := by
  rw [MsgDropAllUsersFromDatabase_opened b msgDocument dbName users iter hO,
    drain_of_failsAfter iter L err hF []]

/-- The five ways the handler can stop before a successful `Query`, with the calls made. -/
theorem MsgDropAllUsersFromDatabase_before_query (b : Backend)
    (msgDocument : Except GoError Document) :
    (∃ dbName users iter, QueryOpens b msgDocument dbName users iter) ∨
    ((∃ err, MsgDropAllUsersFromDatabase b msgDocument = (.failed err, [])) ∧
      ((∃ err, msgDocument = .error err) ∨
        ∃ document, msgDocument = .ok document ∧
          ∀ s : String, document.Get "$db" ≠ some (.string s))) ∨
    (∃ document dbName err, msgDocument = .ok document ∧
      document.Get "$db" = some (.string dbName) ∧ b.Database "admin" = .error err ∧
      MsgDropAllUsersFromDatabase b msgDocument =
        (.failed (.lazyError err), [.database "admin"])) ∨
    (∃ document dbName adminDB err, msgDocument = .ok document ∧
      document.Get "$db" = some (.string dbName) ∧ b.Database "admin" = .ok adminDB ∧
      adminDB.Collection "system.users" = .error err ∧
      MsgDropAllUsersFromDatabase b msgDocument =
        (.failed (.lazyError err), [.database "admin", .collection "system.users"])) ∨
    (∃ document dbName adminDB users err, msgDocument = .ok document ∧
      document.Get "$db" = some (.string dbName) ∧ b.Database "admin" = .ok adminDB ∧
      adminDB.Collection "system.users" = .ok users ∧
      users.Query ⟨[("db", .string dbName)], true⟩ = .error err ∧
      MsgDropAllUsersFromDatabase b msgDocument =
        (.failed (.lazyError err),
          [.database "admin", .collection "system.users",
            .query ⟨[("db", .string dbName)], true⟩])) := by
  cases msgDocument with
  | error err =>
    exact Or.inr (Or.inl ⟨⟨_, rfl⟩, Or.inl ⟨err, rfl⟩⟩)
  | ok document =>
    cases hg : GetRequiredParamString document "$db" with
    | error err =>
      refine Or.inr (Or.inl ⟨⟨err, ?_⟩, Or.inr ⟨document, rfl, ?_⟩⟩)
      · simp only [MsgDropAllUsersFromDatabase, hg]
      · intro s hs
        rw [GetRequiredParamString_of_get document _ _ hs] at hg
        cases hg
    | ok dbName =>
      have hget := GetRequiredParamString_ok document _ _ hg
      cases hA : b.Database "admin" with
      | error err =>
        refine Or.inr (Or.inr (Or.inl ⟨document, dbName, err, rfl, hget, rfl, ?_⟩))
        simp only [MsgDropAllUsersFromDatabase, hg, hA]
      | ok adminDB =>
        cases hC : adminDB.Collection "system.users" with
        | error err =>
          refine Or.inr (Or.inr (Or.inr (Or.inl
            ⟨document, dbName, adminDB, err, rfl, hget, rfl, hC, ?_⟩)))
          simp only [MsgDropAllUsersFromDatabase, hg, hA, hC]
        | ok users =>
          cases hQ : users.Query (usersQuery dbName) with
          | error err =>
            refine Or.inr (Or.inr (Or.inr (Or.inr
              ⟨document, dbName, adminDB, users, err, rfl, hget, rfl, hC, hQ, ?_⟩)))
            simp only [MsgDropAllUsersFromDatabase, hg, hA, hC, hQ]
            rfl
          | ok iter =>
            exact Or.inl ⟨dbName, users, iter, document, adminDB, rfl, hget, hA, hC, hQ⟩

theorem QueryOpens_unique (b : Backend) (msgDocument : Except GoError Document)
    (dbName dbName2 : String) (users users2 : Collection) (iter iter2 : List NextResult)
    (h1 : QueryOpens b msgDocument dbName users iter)
    (h2 : QueryOpens b msgDocument dbName2 users2 iter2) :
    dbName2 = dbName ∧ users2 = users ∧ iter2 = iter := by
  obtain ⟨document, adminDB, hdoc, hget, hA, hC, hQ⟩ := h1
  obtain ⟨document2, adminDB2, hdoc2, hget2, hA2, hC2, hQ2⟩ := h2
  rw [hdoc] at hdoc2
  cases hdoc2
  rw [hget] at hget2
  cases hget2
  rw [hA] at hA2
  cases hA2
  rw [hC] at hC2
  cases hC2
  rw [hQ] at hQ2
  cases hQ2
  exact ⟨rfl, rfl, rfl⟩

theorem Yields_unique (iter : List NextResult) (L L2 : List Int)
    (h1 : Yields iter L) (h2 : Yields iter L2) : L2 = L := by
  have e1 := drain_of_yields iter L h1 []
  have e2 := drain_of_yields iter L2 h2 []
  rw [e1] at e2
  simp only [List.nil_append, Prod.mk.injEq, Except.ok.injEq] at e2
  exact e2.1.symm

theorem Yields_not_failsAfter (iter : List NextResult) (L L2 : List Int) (err : GoError)
    (h1 : Yields iter L) (h2 : FailsAfter iter L2 err) : False := by
  have e1 := drain_of_yields iter L h1 []
  have e2 := drain_of_failsAfter iter L2 err h2 []
  rw [e1] at e2
  simp at e2

theorem MsgDropAllUsersFromDatabase_of_all_succeed (b : Backend)
    (msgDocument : Except GoError Document) (h : AllStepsSucceed b msgDocument) :
    ∃ reply, (MsgDropAllUsersFromDatabase b msgDocument).1 = .returned reply := by
  obtain ⟨dbName, users, iter, L, hO, hY, hD⟩ := h
  by_cases hL : L = []
  · subst hL
    rw [MsgDropAllUsersFromDatabase_none_seen b msgDocument dbName users iter hO hY]
    exact ⟨_, rfl⟩
  · obtain ⟨d, hd⟩ := hD hL
    rw [MsgDropAllUsersFromDatabase_deleted b msgDocument dbName users iter L d hO hY hL hd]
    exact ⟨_, rfl⟩

theorem MsgDropAllUsersFromDatabase_returned_or_failed (b : Backend)
    (msgDocument : Except GoError Document) :
    (AllStepsSucceed b msgDocument ∧
      ∃ reply, (MsgDropAllUsersFromDatabase b msgDocument).1 = .returned reply) ∨
    ∃ err, (MsgDropAllUsersFromDatabase b msgDocument).1 = .failed err := by
  rcases MsgDropAllUsersFromDatabase_before_query b msgDocument with
    ⟨dbName, users, iter, hO⟩ | ⟨⟨err, h⟩, _⟩ | ⟨_, _, err, _, _, _, h⟩ |
    ⟨_, _, _, err, _, _, _, _, h⟩ | ⟨_, _, _, _, err, _, _, _, _, _, h⟩
  · rcases yields_or_failsAfter iter with ⟨L, hY⟩ | ⟨L, err, hF⟩
    · by_cases hL : L = []
      · have hall : AllStepsSucceed b msgDocument :=
          ⟨dbName, users, iter, L, hO, hY, fun hne => absurd hL hne⟩
        exact Or.inl ⟨hall, MsgDropAllUsersFromDatabase_of_all_succeed b msgDocument hall⟩
      · cases hD : users.DeleteAll L with
        | error err =>
          right
          rw [MsgDropAllUsersFromDatabase_delete_failed b msgDocument dbName users iter L
            err hO hY hL hD]
          exact ⟨_, rfl⟩
        | ok d =>
          have hall : AllStepsSucceed b msgDocument :=
            ⟨dbName, users, iter, L, hO, hY, fun _ => ⟨d, hD⟩⟩
          exact Or.inl ⟨hall, MsgDropAllUsersFromDatabase_of_all_succeed b msgDocument hall⟩
    · right
      rw [MsgDropAllUsersFromDatabase_next_failed b msgDocument dbName users iter L err
        hO hF]
      exact ⟨_, rfl⟩
  · right; rw [h]; exact ⟨_, rfl⟩
  · right; rw [h]; exact ⟨_, rfl⟩
  · right; rw [h]; exact ⟨_, rfl⟩
  · right; rw [h]; exact ⟨_, rfl⟩

/-- C4: in every run of `MsgDropAllUsersFromDatabase` in which the document, `$db`,
`admin`, `system.users` and the identifier-only query filtered by `db` = the `$db` value
succeed and the iterator yields the identifiers `L` and then reports done: if `L` is empty,
`DeleteAll` is never called and the reply is (n: 0, ok: 1.0); if `L` is not empty,
`DeleteAll` is called exactly once, with RecordIDs = `L` (in iteration order), and when it
succeeds with the count `d` the reply is (n: `d`, ok: 1.0). -/
theorem MsgDropAllUsersFromDatabase_deletes_seen (b : Backend)
    (msgDocument : Except GoError Document) (dbName : String) (users : Collection)
    (iter : List NextResult) (L : List Int)
    (hO : QueryOpens b msgDocument dbName users iter) (hY : Yields iter L) :
    (L = [] →
      deleteAllCalls (MsgDropAllUsersFromDatabase b msgDocument).2 = [] ∧
      (MsgDropAllUsersFromDatabase b msgDocument).1 =
        .returned ⟨[⟨[[("n", .int32 0), ("ok", .double (Float.ofNat 1))]]⟩]⟩) ∧
    (L ≠ [] →
      deleteAllCalls (MsgDropAllUsersFromDatabase b msgDocument).2 = [L] ∧
      ∀ d : Int, users.DeleteAll L = .ok d →
        (MsgDropAllUsersFromDatabase b msgDocument).1 =
          .returned ⟨[⟨[[("n", .int32 d), ("ok", .double (Float.ofNat 1))]]⟩]⟩) := by
  refine ⟨?_, ?_⟩
  · intro hL
    subst hL
    rw [MsgDropAllUsersFromDatabase_none_seen b msgDocument dbName users iter hO hY]
    exact ⟨rfl, rfl⟩
  · intro hL
    refine ⟨?_, ?_⟩
    · cases hD : users.DeleteAll L with
      | error err =>
        rw [MsgDropAllUsersFromDatabase_delete_failed b msgDocument dbName users iter L
          err hO hY hL hD]
        simp [deleteAllCalls_append, deleteAllCalls_replicate_next, deleteAllCalls]
      | ok d =>
        rw [MsgDropAllUsersFromDatabase_deleted b msgDocument dbName users iter L d
          hO hY hL hD]
        simp [deleteAllCalls_append, deleteAllCalls_replicate_next, deleteAllCalls]
    · intro d hD
      rw [MsgDropAllUsersFromDatabase_deleted b msgDocument dbName users iter L d
        hO hY hL hD]
      rfl

/-- Witness of `MsgDropAllUsersFromDatabase_deletes_seen`: `(dropAllUsersFromDatabase: 1,
$db: "sales")` on a backend whose query yields the identifiers 11, 12, 13 and whose
`DeleteAll` deletes all it is given: one `DeleteAll` of exactly these, reply n = 3. -/
theorem MsgDropAllUsersFromDatabase_deletes_seen_witness :
    deleteAllCalls (MsgDropAllUsersFromDatabase
        (scriptedBackend [.record 11, .record 12, .record 13, .done]
          (fun ids => .ok ids.length))
        (.ok [("dropAllUsersFromDatabase", .int32 1), ("$db", .string "sales")])).2 =
      [[11, 12, 13]] ∧
    (MsgDropAllUsersFromDatabase
        (scriptedBackend [.record 11, .record 12, .record 13, .done]
          (fun ids => .ok ids.length))
        (.ok [("dropAllUsersFromDatabase", .int32 1), ("$db", .string "sales")])).1 =
      .returned ⟨[⟨[[("n", .int32 3), ("ok", .double (Float.ofNat 1))]]⟩]⟩ :=
  have h := (MsgDropAllUsersFromDatabase_deletes_seen
    (scriptedBackend [.record 11, .record 12, .record 13, .done] (fun ids => .ok ids.length))
    (.ok [("dropAllUsersFromDatabase", .int32 1), ("$db", .string "sales")]) "sales"
    ⟨fun _ => .ok [.record 11, .record 12, .record 13, .done], fun ids => .ok ids.length⟩
    [.record 11, .record 12, .record 13, .done] [11, 12, 13]
    ⟨_, ⟨fun _ => .ok ⟨fun _ => .ok [.record 11, .record 12, .record 13, .done],
      fun ids => .ok ids.length⟩⟩, rfl, rfl, rfl, rfl, rfl⟩
    (Or.inr ⟨[], rfl⟩)).2 (by decide)
  ⟨h.1, h.2 3 rfl⟩

/-- C10: in every run of `MsgDropAllUsersFromDatabase` in which `Query` succeeds, the
iterator's `Close` is the last call made and is made exactly once, whatever the exit path
(drained with no identifiers, drained and `DeleteAll` succeeded, an error from `Next`, an
error from `DeleteAll`); when `Query` or an earlier step fails, `Close` is never called. -/
theorem MsgDropAllUsersFromDatabase_close_once (b : Backend)
    (msgDocument : Except GoError Document) :
    (∀ dbName users iter, QueryOpens b msgDocument dbName users iter →
      closeCalls (MsgDropAllUsersFromDatabase b msgDocument).2 = 1 ∧
      ∃ before, (MsgDropAllUsersFromDatabase b msgDocument).2 = before ++ [.close] ∧
        closeCalls before = 0) ∧
    ((¬ ∃ dbName users iter, QueryOpens b msgDocument dbName users iter) →
      closeCalls (MsgDropAllUsersFromDatabase b msgDocument).2 = 0) := by
  refine ⟨?_, ?_⟩
  · intro dbName users iter hO
    have key : ∃ before, (MsgDropAllUsersFromDatabase b msgDocument).2 =
        before ++ [.close] ∧ closeCalls before = 0 := by
      rcases yields_or_failsAfter iter with ⟨L, hY⟩ | ⟨L, err, hF⟩
      · by_cases hL : L = []
        · subst hL
          rw [MsgDropAllUsersFromDatabase_none_seen b msgDocument dbName users iter hO hY]
          exact ⟨[.database "admin", .collection "system.users", .query (usersQuery dbName),
            .next], rfl, rfl⟩
        · cases hD : users.DeleteAll L with
          | error err =>
            rw [MsgDropAllUsersFromDatabase_delete_failed b msgDocument dbName users iter L
              err hO hY hL hD]
            refine ⟨[.database "admin", .collection "system.users",
              .query (usersQuery dbName)] ++ List.replicate (L.length + 1) Call.next ++
              [.deleteAll L], by simp, ?_⟩
            simp [closeCalls_append, closeCalls_replicate_next, closeCalls]
          | ok d =>
            rw [MsgDropAllUsersFromDatabase_deleted b msgDocument dbName users iter L d
              hO hY hL hD]
            refine ⟨[.database "admin", .collection "system.users",
              .query (usersQuery dbName)] ++ List.replicate (L.length + 1) Call.next ++
              [.deleteAll L], by simp, ?_⟩
            simp [closeCalls_append, closeCalls_replicate_next, closeCalls]
      · rw [MsgDropAllUsersFromDatabase_next_failed b msgDocument dbName users iter L err
          hO hF]
        refine ⟨[.database "admin", .collection "system.users",
          .query (usersQuery dbName)] ++ List.replicate (L.length + 1) Call.next, rfl, ?_⟩
        simp [closeCalls_append, closeCalls_replicate_next, closeCalls]
    obtain ⟨before, hb, hz⟩ := key
    refine ⟨?_, before, hb, hz⟩
    rw [hb, closeCalls_append, hz]
    rfl
  · intro hno
    rcases MsgDropAllUsersFromDatabase_before_query b msgDocument with
      hO | ⟨⟨err, h⟩, _⟩ | ⟨_, _, err, _, _, _, h⟩ |
      ⟨_, _, _, err, _, _, _, _, h⟩ | ⟨_, _, _, _, err, _, _, _, _, _, h⟩
    · exact absurd hO hno
    · rw [h]; rfl
    · rw [h]; rfl
    · rw [h]; rfl
    · rw [h]; rfl

/-- Witness of `MsgDropAllUsersFromDatabase_close_once`: `Next` fails after one record;
the handler fails, `DeleteAll` is not called, `Close` is called once, last. -/
theorem MsgDropAllUsersFromDatabase_close_once_witness :
    closeCalls (MsgDropAllUsersFromDatabase
        (scriptedBackend [.record 11, .failed (.other "cursor lost"), .record 12]
          (fun ids => .ok ids.length))
        (.ok [("dropAllUsersFromDatabase", .int32 1), ("$db", .string "sales")])).2 = 1 :=
  ((MsgDropAllUsersFromDatabase_close_once
    (scriptedBackend [.record 11, .failed (.other "cursor lost"), .record 12]
      (fun ids => .ok ids.length))
    (.ok [("dropAllUsersFromDatabase", .int32 1), ("$db", .string "sales")])).1 "sales"
    ⟨fun _ => .ok [.record 11, .failed (.other "cursor lost"), .record 12],
      fun ids => .ok ids.length⟩
    [.record 11, .failed (.other "cursor lost"), .record 12]
    ⟨_, ⟨fun _ => .ok ⟨fun _ => .ok [.record 11, .failed (.other "cursor lost"),
      .record 12], fun ids => .ok ids.length⟩⟩, rfl, rfl, rfl, rfl, rfl⟩).1

/-- C5: `MsgDropAllUsersFromDatabase` returns a reply if and only if every step succeeds
(document extraction, the string field `$db`, `Database("admin")`,
`Collection("system.users")`, `Query`, every `Next` up to done, and `DeleteAll` when it is
issued); otherwise it returns an error result and no reply (it never panics).  After the
failing step no further backend step is made (only the deferred `Close` of an opened
iterator follows): a failed extraction or a missing or non-string `$db` (a
MalformedRequest naming `$db`) fails before any backend call; a failed `Database`,
`Collection` or `Query` is the last call; after a failed `Next` only `Close` follows, so
no delete is issued; after a failed `DeleteAll` only `Close` follows.  Backend errors are
returned wrapped by `lazyerrors.Error`. -/
theorem MsgDropAllUsersFromDatabase_reply_iff_all_succeed (b : Backend)
    (msgDocument : Except GoError Document) :
    ((∃ reply, (MsgDropAllUsersFromDatabase b msgDocument).1 = .returned reply) ↔
      AllStepsSucceed b msgDocument) ∧
    (¬ AllStepsSucceed b msgDocument →
      ∃ err, (MsgDropAllUsersFromDatabase b msgDocument).1 = .failed err) ∧
    (∀ err, msgDocument = .error err →
      MsgDropAllUsersFromDatabase b msgDocument = (.failed (.lazyError err), [])) ∧
    (∀ document, msgDocument = .ok document →
      (∀ s : String, document.Get "$db" ≠ some (.string s)) →
      ∃ msg, MsgDropAllUsersFromDatabase b msgDocument =
        (.failed (.commandError .MalformedRequest msg "$db"), [])) ∧
    (∀ document dbName err, msgDocument = .ok document →
      document.Get "$db" = some (.string dbName) → b.Database "admin" = .error err →
      MsgDropAllUsersFromDatabase b msgDocument =
        (.failed (.lazyError err), [.database "admin"])) ∧
    (∀ document dbName adminDB err, msgDocument = .ok document →
      document.Get "$db" = some (.string dbName) → b.Database "admin" = .ok adminDB →
      adminDB.Collection "system.users" = .error err →
      MsgDropAllUsersFromDatabase b msgDocument =
        (.failed (.lazyError err), [.database "admin", .collection "system.users"])) ∧
    (∀ document dbName adminDB users err, msgDocument = .ok document →
      document.Get "$db" = some (.string dbName) → b.Database "admin" = .ok adminDB →
      adminDB.Collection "system.users" = .ok users →
      users.Query ⟨[("db", .string dbName)], true⟩ = .error err →
      MsgDropAllUsersFromDatabase b msgDocument =
        (.failed (.lazyError err), [.database "admin", .collection "system.users",
          .query ⟨[("db", .string dbName)], true⟩])) ∧
    (∀ dbName users iter L err, QueryOpens b msgDocument dbName users iter →
      FailsAfter iter L err →
      MsgDropAllUsersFromDatabase b msgDocument =
        (.failed (.lazyError err), [.database "admin", .collection "system.users",
          .query ⟨[("db", .string dbName)], true⟩] ++
          List.replicate (L.length + 1) Call.next ++ [.close])) ∧
    (∀ dbName users iter L err, QueryOpens b msgDocument dbName users iter →
      Yields iter L → L ≠ [] → users.DeleteAll L = .error err →
      MsgDropAllUsersFromDatabase b msgDocument =
        (.failed (.lazyError err), [.database "admin", .collection "system.users",
          .query ⟨[("db", .string dbName)], true⟩] ++
          List.replicate (L.length + 1) Call.next ++ [.deleteAll L, .close])) := by
  refine ⟨⟨?_, MsgDropAllUsersFromDatabase_of_all_succeed b msgDocument⟩, ?_, ?_, ?_, ?_,
    ?_, ?_, ?_, ?_⟩
  · rintro ⟨reply, hr⟩
    rcases MsgDropAllUsersFromDatabase_returned_or_failed b msgDocument with
      ⟨hall, _⟩ | ⟨err, he⟩
    · exact hall
    · rw [he] at hr
      cases hr
  · intro hno
    rcases MsgDropAllUsersFromDatabase_returned_or_failed b msgDocument with
      ⟨hall, _⟩ | hfail
    · exact absurd hall hno
    · exact hfail
  · intro err hdoc
    subst hdoc
    rfl
  · intro document hdoc hno
    subst hdoc
    refine ⟨"required parameter " ++ "$db", ?_⟩
    have hg : GetRequiredParamString document "$db" =
        .error (.commandError .MalformedRequest ("required parameter " ++ "$db") "$db") := by
      unfold GetRequiredParamString
      split
      · rename_i s hs
        exact absurd hs (hno s)
      · rfl
    simp only [MsgDropAllUsersFromDatabase, hg]
  · intro document dbName err hdoc hget hA
    subst hdoc
    simp only [MsgDropAllUsersFromDatabase, GetRequiredParamString_of_get document _ _ hget,
      hA]
  · intro document dbName adminDB err hdoc hget hA hC
    subst hdoc
    simp only [MsgDropAllUsersFromDatabase, GetRequiredParamString_of_get document _ _ hget,
      hA, hC]
  · intro document dbName adminDB users err hdoc hget hA hC hQ
    subst hdoc
    have hQ2 : users.Query (usersQuery dbName) = .error err := hQ
    simp only [MsgDropAllUsersFromDatabase, GetRequiredParamString_of_get document _ _ hget,
      hA, hC, hQ2]
    rfl
  · intro dbName users iter L err hO hF
    exact MsgDropAllUsersFromDatabase_next_failed b msgDocument dbName users iter L err
      hO hF
  · intro dbName users iter L err hO hY hL hD
    exact MsgDropAllUsersFromDatabase_delete_failed b msgDocument dbName users iter L err
      hO hY hL hD

/-- Witness of `MsgDropAllUsersFromDatabase_reply_iff_all_succeed`: a document whose `$db`
is an int32 fails with a MalformedRequest before any backend call; and on a backend whose
`DeleteAll` fails the handler returns the wrapped error after the single `DeleteAll`,
with no reply. -/
theorem MsgDropAllUsersFromDatabase_reply_iff_all_succeed_witness :
    (∃ msg, MsgDropAllUsersFromDatabase (scriptedBackend [.record 11, .done]
        (fun ids => .ok ids.length))
        (.ok [("dropAllUsersFromDatabase", .int32 1), ("$db", .int32 5)]) =
      (.failed (.commandError .MalformedRequest msg "$db"), [])) ∧
    MsgDropAllUsersFromDatabase (scriptedBackend [.record 11, .done]
        (fun _ => .error (.other "disk full")))
        (.ok [("dropAllUsersFromDatabase", .int32 1), ("$db", .string "sales")]) =
      (.failed (.lazyError (.other "disk full")),
        [.database "admin", .collection "system.users",
          .query ⟨[("db", .string "sales")], true⟩, .next, .next, .deleteAll [11],
          .close]) :=
  ⟨(MsgDropAllUsersFromDatabase_reply_iff_all_succeed
      (scriptedBackend [.record 11, .done] (fun ids => .ok ids.length))
      (.ok [("dropAllUsersFromDatabase", .int32 1), ("$db", .int32 5)])).2.2.2.1
      [("dropAllUsersFromDatabase", .int32 1), ("$db", .int32 5)] rfl
      (fun s hs => by simp [Document.Get] at hs),
    (MsgDropAllUsersFromDatabase_reply_iff_all_succeed
      (scriptedBackend [.record 11, .done] (fun _ => .error (.other "disk full")))
      (.ok [("dropAllUsersFromDatabase", .int32 1),
        ("$db", .string "sales")])).2.2.2.2.2.2.2.2
      "sales" ⟨fun _ => .ok [.record 11, .done], fun _ => .error (.other "disk full")⟩
      [.record 11, .done] [11] (.other "disk full")
      ⟨_, ⟨fun _ => .ok ⟨fun _ => .ok [.record 11, .done],
        fun _ => .error (.other "disk full")⟩⟩, rfl, rfl, rfl, rfl, rfl⟩
      (Or.inr ⟨[], rfl⟩) (by decide) rfl⟩

end FerretDB
